import Mathlib

/-!
# Shallow embedding of the MACD negotiation core

Translated from `src/main.py` and `src/multi_objective_debate/{model,agent}.py`.

Modelling conventions:
* The two LLM-backed capabilities (`propose.ainvoke`, `declare.ainvoke`) are an
  `Oracle` of pure functions of their invocation payloads (the external
  collaborator boundary of the spec).
* The blocking `input()` prompt of `userFeedbackRound` is a script
  (`List String`) of the lines the arbiter types, consumed left to right; an
  exhausted script is the error case "blocked forever".
* Each agent's durable memory (`Agent.memory`, a list of messages) is tracked
  by its length, together with the `Agent.temp` flag that `Agent.update`
  consumes; `update` on an absent `temp` is the `ValueError` the source raises.
* Python exceptions are `Except String`; the runtime value stored by
  `state.proposal = improved` is the raw `ProposeResponse` (the source stores
  the propose response object, not a role-attributed `Proposal`), so the
  `proposal` fields of `CollaborateState`/`UserFeedbackState` carry
  `Option ProposeResponse`.
-/

/-- `model.Role`: topic, name, position.  Identity is `name`. -/
structure Role where
  topic : String
  name : String
  position : String
  deriving DecidableEq

/-- `model.Proposal`: a proposal attributed to its author. -/
structure Proposal where
  role : Role
  proposal : String
  deriving DecidableEq

/-- `model.Objection`: a dissenting role and its reason. -/
structure Objection where
  role : Role
  reason : String
  deriving DecidableEq

/-- `model.Divergence`: a rejected proposal with the objections raised. -/
structure Divergence where
  proposal : Proposal
  objections : List Objection
  deriving DecidableEq

/-- `model.Preference`: a human-endorsed proposal with an optional reason. -/
structure Preference where
  proposal : Proposal
  reason : Option String
  deriving DecidableEq

/-- `prompts.ProposeResponse`: the structured output of a propose call. -/
structure ProposeResponse where
  proposal : String
  deriving DecidableEq

/-- `prompts.DeclareResponse`: optional objection reason of a declare call. -/
structure DeclareResponse where
  objection : Option String
  deriving DecidableEq

/-- `main.CollaborateState` (queue, current best proposal, divergence log). -/
structure CollaborateState where
  queue : List Role
  proposal : Option ProposeResponse
  divergences : List Divergence
  deriving DecidableEq

/-- `main.UserFeedbackState`.  The source annotates `proposal : Proposal`, but
at runtime the field receives `CollaborateState.proposal`, which is `None`
until a proposal is accepted, so the embedding carries the runtime type. -/
structure UserFeedbackState where
  proposal : Option ProposeResponse
  divergences : List Divergence
  deriving DecidableEq

/-- `main.EndState`. -/
structure EndState where
  proposals : List Proposal
  deriving DecidableEq

/-- `main.Stage`. -/
inductive Stage where
  | Collaborate
  | Debate
  | UserFeedback
  | End
  deriving DecidableEq

/-- The `state` field of `main.GraphState`: the per-stage payload union
(`CollaborateState`, `DebateState` is empty, `UserFeedbackState`,
`EndState`). -/
inductive NodeState where
  | collab (s : CollaborateState)
  | debate
  | feedback (s : UserFeedbackState)
  | terminal (s : EndState)
  deriving DecidableEq

/-- `main.GraphState`: accumulated user preferences (langgraph reducer
`operator.add`, so node returns append to it), stage tag and payload. -/
structure GraphState where
  user_preferences : List Preference
  stage : Stage
  state : NodeState
  deriving DecidableEq

/-! ## Python primitives used by the source -/

/-- `str.isnumeric` restricted to the ASCII digit strings the feedback loop
cares about: non-empty and all digits. -/
def pyIsNumeric (s : String) : Bool :=
  s.length != 0 && s.toList.all Char.isDigit

/-- `int(s)` for a numeric string (the source only applies it after
`isnumeric` passes, so only digit strings reach this). -/
def pyInt (s : String) : Nat :=
  s.data.foldl (fun acc c => acc * 10 + (c.toNat - 48)) 0

/-- `str.strip`: drop leading and trailing whitespace. -/
def pyStrip (s : String) : String :=
  ⟨((s.data.dropWhile Char.isWhitespace).reverse.dropWhile Char.isWhitespace).reverse⟩

/-- Python list indexing `l[i]`: negative indices wrap from the back, and an
index outside the list raises `IndexError` (`none` here). -/
def pyListGet {α : Type} (l : List α) (i : Int) : Option α :=
  if 0 ≤ i then l[i.toNat]?
  else if 0 ≤ (l.length : Int) + i then l[((l.length : Int) + i).toNat]?
  else none

/-- Python `dict` as an insertion-ordered association list:
`m[k] = v` overwrites in place when `k` is present, otherwise appends. -/
def pyDictInsert {κ α : Type} [DecidableEq κ] (m : List (κ × α)) (k : κ) (v : α) :
    List (κ × α) :=
  if m.any (fun p => p.1 == k) then
    m.map (fun p => if p.1 == k then (k, v) else p)
  else
    m ++ [(k, v)]

/-- Python `k in d`. -/
def pyDictHasKey {κ α : Type} [DecidableEq κ] (m : List (κ × α)) (k : κ) : Bool :=
  m.any (fun p => p.1 == k)

/-- Python `d.get(k)`. -/
def pyDictGet {κ α : Type} [DecidableEq κ] (m : List (κ × α)) (k : κ) : Option α :=
  (m.find? (fun p => p.1 == k)).map (·.2)

/-- Decidable equality of run results, so that concrete evaluations of the
round functions can be settled by `decide`. -/
instance {ε α : Type} [DecidableEq ε] [DecidableEq α] : DecidableEq (Except ε α)
  | .error a, .error b =>
    match decEq a b with
    | isTrue h => isTrue (by rw [h])
    | isFalse h => isFalse (by intro hc; cases hc; exact h rfl)
  | .error _, .ok _ => isFalse (by intro hc; cases hc)
  | .ok _, .error _ => isFalse (by intro hc; cases hc)
  | .ok a, .ok b =>
    match decEq a b with
    | isTrue h => isTrue (by rw [h])
    | isFalse h => isFalse (by intro hc; cases hc; exact h rfl)

/-! ## Agents (`multi_objective_debate/agent.py`) -/

/-- The observable state of one `AgentGroup`'s `propose` and `declare` agents:
length of each committed memory plus the pending `temp` exchange flags
(`Agent.invoke` stores `temp`; `Agent.update` commits it or raises). -/
structure AgentState where
  proposeMem : Nat
  proposeTemp : Bool
  declareMem : Nat
  declareTemp : Bool
  deriving DecidableEq

/-- A fresh agent: empty memory, no pending exchange. -/
def AgentState.init : AgentState :=
  ⟨0, false, 0, false⟩

/-- Memories of every role's agents, keyed by role name. -/
abbrev Mems := String → AgentState

/-- All agents fresh. -/
def initMems : Mems := fun _ => AgentState.init

/-- Point update of one role's agent state. -/
def setMem (m : Mems) (n : String) (a : AgentState) : Mems :=
  fun k => if k = n then a else m k

/-- `AgentGroup.propose.ainvoke` side effect: record the pending exchange. -/
def invokePropose (m : Mems) (n : String) : Mems :=
  setMem m n { m n with proposeTemp := true }

/-- `AgentGroup.declare.ainvoke` side effect: record the pending exchange. -/
def invokeDeclare (m : Mems) (n : String) : Mems :=
  setMem m n { m n with declareTemp := true }

/-- `Agent.update` on the propose agent: commit the pending exchange into
memory; raises (`none`) when nothing was invoked first. -/
def updatePropose (m : Mems) (n : String) : Option Mems :=
  if (m n).proposeTemp then
    some (setMem m n
      { m n with proposeMem := (m n).proposeMem + 1, proposeTemp := false })
  else none

/-- `Agent.update` on the declare agent of one role. -/
def updateDeclareOne (m : Mems) (n : String) : Option Mems :=
  if (m n).declareTemp then
    some (setMem m n
      { m n with declareMem := (m n).declareMem + 1, declareTemp := false })
  else none

/-- The `for group in others: group.declare.update()` loop of
`collaborateRound` (src/main.py lines 157-158). -/
def updateDeclares (m : Mems) : List String → Option Mems
  | [] => some m
  | n :: ns =>
    match updateDeclareOne m n with
    | none => none
    | some m2 => updateDeclares m2 ns

/-- The LLM boundary: `propose(role, current proposal, preferences)` and
`declare(role, original, improved, preferences)`, modelled as pure functions
of the invocation payloads (spec section 6). -/
structure Oracle where
  propose : Role → Option ProposeResponse → List Preference → ProposeResponse
  declare : Role → Option ProposeResponse → ProposeResponse → List Preference → DeclareResponse

/-- `AgentGroups.mapping`: a Python dict from role name to the role of that
group (`{role.name: AgentGroup(llm, role) for role in roles}`). -/
abbrev Groups := List (String × Role)

/-- `AgentGroups.__init__`: build the mapping dict in role order. -/
def mkAgentGroups (roles : List Role) : Groups :=
  roles.foldl (fun m r => pyDictInsert m r.name r) []

/-- `AgentGroups.get(role)`. -/
def groupsGet (groups : Groups) (role : Role) : Option Role :=
  pyDictGet groups role.name

/-- The `others` component of `AgentGroups.split(role)`:
`[v for k, v in mapping.items() if k != role.name]`. -/
def groupsOthers (groups : Groups) (role : Role) : List Role :=
  (groups.filter (fun p => p.1 != role.name)).map (·.2)

/-- The objection list collected in a collaborate round (src/main.py lines
160-164): one `Objection` per non-speaking role whose declare response
carries a reason, in `others` order. -/
def roundObjections (o : Oracle) (others : List Role)
    (original : Option ProposeResponse) (improved : ProposeResponse)
    (prefs : List Preference) : List Objection :=
  (others.map (fun r => (r, o.declare r original improved prefs))).filterMap
    (fun p => p.2.objection.map (fun reason => ⟨p.1, reason⟩))

/-! ## The three round functions (`src/main.py`) -/

/-- `collaborateRound` (src/main.py lines 93-202).  Returns the langgraph
node update (the `user_preferences` key is not returned by the source, so it
is passed through unchanged) together with the mutated agent memories.

The acceptance branch models the source's leaked loop variable: the
statement-level loop `for group in others: group.declare.update()` (lines
157-158) rebinds the function-scope `group` bound by `groups.split(role)` at
line 127, so `group.propose.update()` at line 197 is called on the *last*
group of `others` when `others` is non-empty (raising
`ValueError("please invoke first before update")` if that agent has no
pending propose exchange), and on the speaker's group only when `others` is
empty.  The source mutates `queue`/`state` before that call, but the raised
exception aborts the graph run, so no state is observable on that path. -/
def collaborateRound (o : Oracle) (groups : Groups) (g : GraphState)
    (mems : Mems) : Except String (GraphState × Mems) :=
  if g.stage ≠ Stage.Collaborate then .error "Unexpected stage"
  else
    match g.state with
    | .collab cs =>
      match cs.queue with
      | [] =>
        .ok ({ g with
                stage := Stage.UserFeedback,
                state := .feedback ⟨cs.proposal, cs.divergences⟩ }, mems)
      | role :: queue =>
        match groupsGet groups role with
        | none => .error "role not found"
        | some r0 =>
          let others := groupsOthers groups role
          let improved := o.propose role cs.proposal g.user_preferences
          let mems1 := invokePropose mems role.name
          let mems2 := others.foldl (fun m r => invokeDeclare m r.name) mems1
          match updateDeclares mems2 (others.map (·.name)) with
          | none => .error "please invoke first before update"
          | some mems3 =>
            let objections :=
              roundObjections o others cs.proposal improved g.user_preferences
            if objections ≠ [] then
              .ok ({ g with
                      stage := Stage.Collaborate,
                      state := .collab ⟨queue, cs.proposal,
                        cs.divergences ++
                          [⟨⟨role, improved.proposal⟩, objections⟩]⟩ }, mems3)
            else
              match updatePropose mems3 ((others.getLast?.getD r0).name) with
              | none => .error "please invoke first before update"
              | some mems4 =>
                .ok ({ g with
                        stage := Stage.Collaborate,
                        state := .collab ⟨queue ++ [role], some improved,
                          cs.divergences⟩ }, mems4)
    | _ => .error "TypeError: stage Collaborate with non-collaborate payload"

/-- `debateRound` (src/main.py lines 205-220): checks the stage precondition
and returns the state unchanged with `stage` still `Stage.Debate` (line
218 of the source returns `Stage.Debate`, not `Stage.Collaborate`). -/
def debateRound (g : GraphState) : Except String GraphState :=
  if g.stage ≠ Stage.Debate then .error "Unexpected stage"
  else .ok { g with stage := Stage.Debate }

/-- Outcome of the arbiter interaction loop: `quit` reaches the `q` return,
`cont` reaches the `c` break; both carry `selected.values()` in insertion
order. -/
inductive FeedbackOutcome where
  | quit (selected : List Preference)
  | cont (selected : List Preference)
  deriving DecidableEq

/-- The `while True` input loop of `userFeedbackRound` (src/main.py lines
243-281), consuming the arbiter's script.  `selected` is the
`dict[int, Preference]` keyed by the raw numeric input.  Every iteration of
the source loop consumes at least one input line, so the recursion is driven
by a fuel that the caller sets to the script length; running out of script
(under either match) is the "blocked forever on `input()`" error. -/
def feedbackLoop (divergences : List Divergence) :
    Nat → List (Nat × Preference) → List String →
    Except String (FeedbackOutcome × List String)
  | 0, _, _ => .error "blocked on input: script exhausted"
  | fuel + 1, selected, inputs =>
    match inputs with
    | [] => .error "blocked on input: script exhausted"
    | selection :: rest =>
      if !(pyIsNumeric selection) then
        if pyStrip selection == "c" then
          .ok (.cont (selected.map (·.2)), rest)
        else if pyStrip selection == "q" then
          .ok (.quit (selected.map (·.2)), rest)
        else
          feedbackLoop divergences fuel selected rest
      else
        let n := pyInt selection
        if n > divergences.length then
          feedbackLoop divergences fuel selected rest
        else if pyDictHasKey selected n then
          feedbackLoop divergences fuel selected rest
        else
          match pyListGet divergences ((n : Int) - 1) with
          | none => .error "IndexError: list index out of range"
          | some divergence =>
            match rest with
            | [] => .error "blocked on input: script exhausted"
            | reason :: rest2 =>
              feedbackLoop divergences fuel
                (pyDictInsert selected n
                  ⟨divergence.proposal,
                   if reason == "" then none else some reason⟩)
                rest2

/-- `userFeedbackRound` (src/main.py lines 223-287).  On `q` it returns the
End update whose proposals come from this loop's `selected.values()` only;
on `c` it returns the Debate update, and langgraph's `operator.add` reducer
appends this loop's selections to `user_preferences`. -/
def userFeedbackRound (g : GraphState) (inputs : List String) :
    Except String (GraphState × List String) :=
  if g.stage ≠ Stage.UserFeedback then .error "Unexpected stage"
  else
    match g.state with
    | .feedback fs =>
      match feedbackLoop fs.divergences inputs.length [] inputs with
      | .error e => .error e
      | .ok (.quit selectedPrefs, rest) =>
        .ok ({ g with
                stage := Stage.End,
                state := .terminal ⟨selectedPrefs.map (·.proposal)⟩ }, rest)
      | .ok (.cont selectedPrefs, rest) =>
        .ok ({ g with
                user_preferences := g.user_preferences ++ selectedPrefs,
                stage := Stage.Debate,
                state := .debate }, rest)
    | _ => .error "AttributeError: stage UserFeedback with wrong payload"

/-! ## The compiled graph (`MACD._init_graph`, src/main.py lines 291-329) -/

/-- The three graph nodes. -/
inductive Node where
  | Collaborate
  | Debate
  | UserFeedback
  deriving DecidableEq

/-- One execution of the compiled langgraph: run the current node, then
follow the edge selected by the returned `stage` (conditional edges from
Collaborate and UserFeedback, the unconditional Debate → Collaborate edge),
until the End edge or the recursion limit (`fuel`) is hit. -/
def runGraph (o : Oracle) (groups : Groups) :
    Nat → Node → GraphState → Mems → List String →
    Except String (GraphState × Mems × List String)
  | 0, _, _, _, _ => .error "GraphRecursionError"
  | fuel + 1, Node.Collaborate, g, m, script =>
    match collaborateRound o groups g m with
    | .error e => .error e
    | .ok (g2, m2) =>
      match g2.stage with
      | Stage.Collaborate => runGraph o groups fuel Node.Collaborate g2 m2 script
      | Stage.UserFeedback => runGraph o groups fuel Node.UserFeedback g2 m2 script
      | _ => .error "edge not found"
  | fuel + 1, Node.UserFeedback, g, m, script =>
    match userFeedbackRound g script with
    | .error e => .error e
    | .ok (g2, script2) =>
      match g2.stage with
      | Stage.Debate => runGraph o groups fuel Node.Debate g2 m script2
      | Stage.End => .ok (g2, m, script2)
      | _ => .error "edge not found"
  | fuel + 1, Node.Debate, g, m, script =>
    match debateRound g with
    | .error e => .error e
    | .ok g2 => runGraph o groups fuel Node.Collaborate g2 m script

/-- The Collaborate-phase restriction of the graph: iterate
`collaborateRound` along the Collaborate → Collaborate conditional edge,
stopping as soon as the returned stage leaves Collaborate (or after `n`
rounds).  Used to express reachability by Collaborate rounds. -/
def collabSteps (o : Oracle) (groups : Groups) :
    Nat → GraphState → Mems → Except String (GraphState × Mems)
  | 0, g, m => .ok (g, m)
  | n + 1, g, m =>
    match collaborateRound o groups g m with
    | .error e => .error e
    | .ok (g2, m2) =>
      if g2.stage = Stage.Collaborate then collabSteps o groups n g2 m2
      else .ok (g2, m2)

/-- `MACD.ainvoke` (src/main.py lines 343-361): build the groups, start at
the Collaborate entry point with the caller's role list as the queue, run the
graph, and return the terminal `EndState.proposals`. -/
def MACD.ainvoke (o : Oracle) (roles : List Role) (script : List String)
    (fuel : Nat) : Except String (List Proposal) :=
  let groups := mkAgentGroups roles
  let g0 : GraphState := ⟨[], Stage.Collaborate, .collab ⟨roles, none, []⟩⟩
  match runGraph o groups fuel Node.Collaborate g0 initMems script with
  | .error e => .error e
  | .ok (g, _, _) =>
    match g.state with
    | .terminal es => .ok es.proposals
    | _ => .error "AttributeError: final state has no proposals"

/-- `MACD.invoke` (src/main.py lines 336-341): runs
`aio.run(self.ainvoke(input, config))` and falls off the end of the function,
so exceptions propagate but a successful run returns Python's implicit
`None`, never the proposal list. -/
def MACD.invoke (o : Oracle) (roles : List Role) (script : List String)
    (fuel : Nat) : Except String (Option (List Proposal)) :=
  match MACD.ainvoke o roles script fuel with
  | .error e => .error e
  | .ok _ => .ok none

/-! ## Concrete scenario data for witnesses and counterexamples -/

/-- Concrete role "A". -/
def rA : Role := ⟨"t", "A", "pa"⟩

/-- Concrete role "B". -/
def rB : Role := ⟨"t", "B", "pb"⟩

/-- A divergence whose proposal is authored by `rA`, objected to by `rB`. -/
def d1 : Divergence := ⟨⟨rA, "p1"⟩, [⟨rB, "n1"⟩]⟩

/-- A divergence whose proposal is authored by `rB`, objected to by `rA`. -/
def d2 : Divergence := ⟨⟨rB, "p2"⟩, [⟨rA, "n2"⟩]⟩

/-- The divergence produced by `oObj` when `rA` speaks before `rB`. -/
def dAB : Divergence := ⟨⟨rA, "p"⟩, [⟨rB, "no"⟩]⟩

/-- A preference accumulated in an earlier feedback round. -/
def prefPrev : Preference := ⟨⟨rA, "p0"⟩, none⟩

/-- An oracle whose declare calls never object (every proposal accepted). -/
def trivOracle : Oracle :=
  ⟨fun _ _ _ => ⟨"p"⟩, fun _ _ _ _ => ⟨none⟩⟩

/-- An oracle whose declare calls always object (every proposal rejected). -/
def oObj : Oracle :=
  ⟨fun _ _ _ => ⟨"p"⟩, fun _ _ _ _ => ⟨some "no"⟩⟩

/-- The state handed to the Debate node after a feedback `continue`. -/
def gDebate : GraphState := ⟨[], Stage.Debate, NodeState.debate⟩

/-- The agent memories at a round's decide step (after the propose and
declare invocations and the declare-update loop): every non-speaking role's
declare agent has committed one exchange and its pending flag was consumed,
while the speaker's propose agent holds a pending exchange; any later
propose commit is whatever `updatePropose` does to the leaked loop
variable's group. -/
def roundMems (m : Mems) (speaker : String) (names : List String) : Mems :=
  fun k =>
    if k ∈ names then
      { m k with declareMem := (m k).declareMem + 1, declareTemp := false }
    else if k = speaker then
      { m k with proposeTemp := true }
    else m k

/-! ## Association-list (Python dict) lemmas -/

theorem pyDictInsert_keys_nodup {κ α : Type} [DecidableEq κ]
    {m : List (κ × α)} (k : κ) (v : α) (h : (m.map Prod.fst).Nodup) :
    ((pyDictInsert m k v).map Prod.fst).Nodup := by
  unfold pyDictInsert
  split
  · have : (m.map (fun p => if p.1 == k then (k, v) else p)).map Prod.fst
        = m.map Prod.fst := by
      rw [List.map_map]
      refine List.map_congr_left ?_
      intro p _
      by_cases hp : p.1 = k
      · simp [hp]
      · simp [hp]
    rw [this]
    exact h
  · rename_i hany
    rw [List.map_append]
    simp only [List.map_cons, List.map_nil]
    rw [List.nodup_append]
    refine ⟨h, List.nodup_singleton k, ?_⟩
    intro a ha hb
    simp only [List.mem_singleton] at hb
    subst hb
    obtain ⟨p, hp, hpk⟩ := List.mem_map.mp ha
    exact hany (List.any_eq_true.mpr ⟨p, hp, by simp [hpk]⟩)

theorem pyDictInsert_mem {κ α : Type} [DecidableEq κ]
    {m : List (κ × α)} {k : κ} {v : α} :
    ∀ p ∈ pyDictInsert m k v, p ∈ m ∨ p = (k, v) := by
  intro p hp
  unfold pyDictInsert at hp
  split at hp
  · obtain ⟨q, hq, hqp⟩ := List.mem_map.mp hp
    by_cases h : q.1 = k
    · right; simp [h] at hqp; exact hqp.symm
    · left; simp [h] at hqp; exact hqp ▸ hq
  · rcases List.mem_append.mp hp with h | h
    · exact Or.inl h
    · right; simpa using h

/-! ## `mkAgentGroups` invariants -/

theorem mkAgentGroups_aux (roles : List Role) (m : Groups)
    (hk : (m.map Prod.fst).Nodup) (hv : ∀ p ∈ m, p.2.name = p.1) :
    (((roles.foldl (fun m r => pyDictInsert m r.name r) m)).map Prod.fst).Nodup
    ∧ ∀ p ∈ roles.foldl (fun m r => pyDictInsert m r.name r) m, p.2.name = p.1 := by
  induction roles generalizing m with
  | nil => exact ⟨hk, hv⟩
  | cons r rs ih =>
    refine ih (pyDictInsert m r.name r) (pyDictInsert_keys_nodup _ _ hk) ?_
    intro p hp
    rcases pyDictInsert_mem p hp with h | h
    · exact hv p h
    · subst h; rfl

/-- The dict built by `AgentGroups.__init__` has pairwise distinct keys. -/
theorem mkAgentGroups_keys_nodup (roles : List Role) :
    ((mkAgentGroups roles).map Prod.fst).Nodup :=
  (mkAgentGroups_aux roles [] (by simp) (by simp)).1

/-- Every entry of the groups dict maps a name to a role with that name. -/
theorem mkAgentGroups_name_eq (roles : List Role) :
    ∀ p ∈ mkAgentGroups roles, p.2.name = p.1 :=
  (mkAgentGroups_aux roles [] (by simp) (by simp)).2

theorem groupsOthers_names_eq (groups : Groups) (role : Role)
    (hv : ∀ p ∈ groups, p.2.name = p.1) :
    (groupsOthers groups role).map Role.name
    = (groups.filter (fun p => p.1 != role.name)).map Prod.fst := by
  unfold groupsOthers
  rw [List.map_map]
  refine List.map_congr_left ?_
  intro p hp
  exact hv p (List.mem_of_mem_filter hp)

/-- The speaker is excluded from `others` (dict filter on the key). -/
theorem speaker_not_mem_others_names (groups : Groups) (role : Role)
    (hv : ∀ p ∈ groups, p.2.name = p.1) :
    role.name ∉ (groupsOthers groups role).map Role.name := by
  rw [groupsOthers_names_eq groups role hv]
  intro hmem
  obtain ⟨p, hp, hpn⟩ := List.mem_map.mp hmem
  have := List.of_mem_filter hp
  simp only [bne_iff_ne, ne_eq] at this
  exact this hpn

/-- With distinct dict keys, the names of `others` are pairwise distinct. -/
theorem groupsOthers_names_nodup (groups : Groups) (role : Role)
    (hk : (groups.map Prod.fst).Nodup) (hv : ∀ p ∈ groups, p.2.name = p.1) :
    ((groupsOthers groups role).map Role.name).Nodup := by
  rw [groupsOthers_names_eq groups role hv]
  exact hk.sublist ((List.filter_sublist _).map Prod.fst)

/-! ## Memory-effect lemmas -/

theorem foldl_invokeDeclare_apply (rs : List Role) (m : Mems) (n : String) :
    (rs.foldl (fun m r => invokeDeclare m r.name) m) n
    = if n ∈ rs.map Role.name then { m n with declareTemp := true } else m n := by
  induction rs generalizing m with
  | nil => simp
  | cons r rs ih =>
    simp only [List.foldl_cons, List.map_cons, List.mem_cons]
    rw [ih]
    by_cases h1 : n ∈ rs.map Role.name
    · by_cases h2 : n = Role.name r <;>
        simp [h1, h2, invokeDeclare, setMem]
    · by_cases h2 : n = Role.name r <;>
        simp [h1, h2, invokeDeclare, setMem]

theorem updateDeclares_eq (ns : List String) (m : Mems)
    (hnd : ns.Nodup) (ht : ∀ n ∈ ns, (m n).declareTemp = true) :
    updateDeclares m ns
    = some (fun k => if k ∈ ns then
        { m k with declareMem := (m k).declareMem + 1, declareTemp := false }
      else m k) := by
  induction ns generalizing m with
  | nil => simp [updateDeclares]
  | cons n ns ih =>
    have htn : (m n).declareTemp = true := ht n (by simp)
    have hnotmem : n ∉ ns := (List.nodup_cons.mp hnd).1
    rw [updateDeclares, updateDeclareOne, if_pos htn]
    dsimp only
    rw [ih (setMem m n
        { m n with declareMem := (m n).declareMem + 1, declareTemp := false })
        (List.nodup_cons.mp hnd).2 ?_]
    · congr 1
      funext k
      by_cases hk1 : k ∈ ns
      · have hk2 : k ≠ n := fun h => hnotmem (h ▸ hk1)
        simp [hk1, hk2, setMem, List.mem_cons]
      · by_cases hk2 : k = n
        · subst hk2
          simp [hk1, setMem]
        · simp [hk1, hk2, setMem, List.mem_cons]
    · intro x hx
      have hxn : x ≠ n := fun h => hnotmem (h ▸ hx)
      simp only [setMem, hxn, if_false]
      exact ht x (List.mem_cons_of_mem n hx)

theorem updateDeclares_pipeline (others : List Role) (mems : Mems)
    (speaker : String) (hnd : (others.map Role.name).Nodup)
    (hns : speaker ∉ others.map Role.name) :
    updateDeclares
      (others.foldl (fun m r => invokeDeclare m r.name) (invokePropose mems speaker))
      (others.map Role.name)
    = some (roundMems mems speaker (others.map Role.name)) := by
  rw [updateDeclares_eq _ _ hnd ?ht]
  case ht =>
    intro n hn
    rw [foldl_invokeDeclare_apply, if_pos hn]
  congr 1
  funext k
  by_cases hk1 : k ∈ others.map Role.name
  · have hk2 : k ≠ speaker := fun h => hns (h ▸ hk1)
    simp [roundMems, hk1, hk2, foldl_invokeDeclare_apply, invokePropose, setMem]
  · by_cases hk2 : k = speaker
    · subst hk2
      simp [roundMems, hk1, foldl_invokeDeclare_apply, invokePropose, setMem]
    · simp [roundMems, hk1, hk2, foldl_invokeDeclare_apply, invokePropose, setMem]

theorem collaborateRound_cons_eq (o : Oracle) (groups : Groups)
    (prefs : List Preference) (role : Role) (queue : List Role)
    (prop : Option ProposeResponse) (divs : List Divergence) (mems : Mems)
    (r0 : Role) (hget : groupsGet groups role = some r0)
    (hnd : ((groupsOthers groups role).map Role.name).Nodup)
    (hns : role.name ∉ (groupsOthers groups role).map Role.name) :
    collaborateRound o groups
      ⟨prefs, Stage.Collaborate, .collab ⟨role :: queue, prop, divs⟩⟩ mems
    = if roundObjections o (groupsOthers groups role) prop
          (o.propose role prop prefs) prefs = [] then
        match updatePropose
            (roundMems mems role.name ((groupsOthers groups role).map Role.name))
            (((groupsOthers groups role).getLast?.getD r0).name) with
        | none => .error "please invoke first before update"
        | some mems4 =>
          .ok (⟨prefs, Stage.Collaborate,
                .collab ⟨queue ++ [role], some (o.propose role prop prefs),
                  divs⟩⟩, mems4)
      else
        .ok (⟨prefs, Stage.Collaborate,
              .collab ⟨queue, prop,
                divs ++ [⟨⟨role, (o.propose role prop prefs).proposal⟩,
                  roundObjections o (groupsOthers groups role) prop
                    (o.propose role prop prefs) prefs⟩]⟩⟩,
             roundMems mems role.name ((groupsOthers groups role).map Role.name)) := by
  unfold collaborateRound
  rw [if_neg (by simp)]
  dsimp only
  rw [hget]
  dsimp only
  rw [updateDeclares_pipeline _ _ _ hnd hns]
  dsimp only
  by_cases hobj : roundObjections o (groupsOthers groups role) prop
      (o.propose role prop prefs) prefs = []
  · rw [if_pos hobj, if_neg (by simp [hobj])]
  · rw [if_neg hobj, if_pos hobj]

theorem collaborateRound_role_not_found (o : Oracle) (groups : Groups)
    (prefs : List Preference) (role : Role) (rest : List Role)
    (prop : Option ProposeResponse) (divs : List Divergence) (mems : Mems)
    (hget : groupsGet groups role = none) :
    collaborateRound o groups
      ⟨prefs, Stage.Collaborate, .collab ⟨role :: rest, prop, divs⟩⟩ mems
    = .error "role not found" := by
  unfold collaborateRound
  rw [if_neg (by simp)]
  dsimp only
  rw [hget]

/-- C2: the spec says the Debate round returns `stage = Collaborate` with the
state otherwise unchanged.  The source (src/main.py line 218) instead returns
`stage = Stage.Debate`; the unconditional Debate → Collaborate edge then hands
a Debate-stage state to the Collaborate node, whose own precondition check
raises `ValueError("Unexpected stage")`, so every run that passes through the
Debate node aborts. -/
theorem debateRound_keeps_stage_debate :
    debateRound gDebate = .ok gDebate
    ∧ gDebate.stage = Stage.Debate
    ∧ collaborateRound trivOracle (mkAgentGroups []) gDebate initMems
        = .error "Unexpected stage"
    ∧ runGraph trivOracle (mkAgentGroups []) 3 Node.Debate gDebate initMems []
        = .error "Unexpected stage" :=
  ⟨rfl, rfl, rfl, rfl⟩

/-- C5: numeric feedback input `"0"` is accepted, not re-prompted: it passes
the `selection > len(divergences)` check, and `divergences[0 - 1]` selects the
*last* divergence by Python negative indexing, recording a preference for it
(first conjunct); with an empty divergence list it raises IndexError (last
conjunct).  Inputs strictly above the range and duplicate selections are
re-prompted with no preference recorded (middle conjuncts), as the claim
says. -/
theorem feedback_index_zero_selects_last_divergence :
    userFeedbackRound ⟨[], Stage.UserFeedback, .feedback ⟨none, [d1, d2]⟩⟩
        ["0", "why", "q"]
      = .ok (⟨[], Stage.End, .terminal ⟨[d2.proposal]⟩⟩, [])
    ∧ userFeedbackRound ⟨[], Stage.UserFeedback, .feedback ⟨none, [d1, d2]⟩⟩
        ["3", "c"]
      = .ok (⟨[], Stage.Debate, .debate⟩, [])
    ∧ userFeedbackRound ⟨[], Stage.UserFeedback, .feedback ⟨none, [d1, d2]⟩⟩
        ["1", "ra", "1", "q"]
      = .ok (⟨[], Stage.End, .terminal ⟨[d1.proposal]⟩⟩, [])
    ∧ userFeedbackRound ⟨[], Stage.UserFeedback, .feedback ⟨none, []⟩⟩ ["0"]
      = .error "IndexError: list index out of range" :=
  ⟨rfl, rfl, rfl, rfl⟩

/-- C9: `MACD.ainvoke` does return the terminal `EndState.proposals`, but the
exposed synchronous surface `MACD.invoke` runs `aio.run(self.ainvoke(...))`
without a `return`, so it yields Python's implicit `None` instead of the
proposal list, contradicting its own `-> list[Proposal]` annotation.  The
second pair runs a full negotiation (two rejected rounds, arbiter selects
divergence 1 and quits). -/
theorem invoke_returns_none :
    MACD.ainvoke trivOracle [] ["q"] 5 = .ok []
    ∧ MACD.invoke trivOracle [] ["q"] 5 = .ok none
    ∧ MACD.ainvoke oObj [rA, rB] ["1", "r", "q"] 8 = .ok [dAB.proposal]
    ∧ MACD.invoke oObj [rA, rB] ["1", "r", "q"] 8 = .ok none :=
  ⟨rfl, rfl, rfl, rfl⟩

/-- C1 counterexample: a quit in a feedback loop with a previously
accumulated preference (`prefPrev`) yields End output `[]`, not the proposals
of every preference selected across the negotiation (`[prefPrev.proposal]`):
the `q` branch builds `EndState` from this loop's `selected.values()` only. -/
theorem quit_drops_accumulated_preferences :
    userFeedbackRound ⟨[prefPrev], Stage.UserFeedback, .feedback ⟨none, []⟩⟩
        ["q"]
      = .ok (⟨[prefPrev], Stage.End, .terminal ⟨[]⟩⟩, [])
    ∧ (⟨[]⟩ : EndState).proposals
        ≠ ([prefPrev] ++ []).map Preference.proposal :=
  ⟨rfl, by decide⟩

/-- C1 amended: when the arbiter quits, the End-stage output is exactly the
proposals of the preferences selected in the *current* feedback loop, in
first-selected order; preferences accumulated in earlier rounds are not
included. -/
theorem quit_outputs_current_loop_selections (g : GraphState)
    (fs : UserFeedbackState) (inputs rest : List String)
    (sel : List Preference)
    (hstage : g.stage = Stage.UserFeedback) (hstate : g.state = .feedback fs)
    (hloop : feedbackLoop fs.divergences inputs.length [] inputs
      = .ok (.quit sel, rest)) :
    userFeedbackRound g inputs
      = .ok ({ g with
                stage := Stage.End,
                state := .terminal ⟨sel.map Preference.proposal⟩ }, rest) := by
  obtain ⟨up, stg, st⟩ := g
  dsimp only at hstage hstate
  subst hstage
  subst hstate
  unfold userFeedbackRound
  rw [if_neg (by simp)]
  dsimp only
  rw [hloop]

/-- Witness for the amended C1 theorem at a concrete negotiation state. -/
theorem quit_outputs_current_loop_selections_witness :
    userFeedbackRound
        ⟨[prefPrev], Stage.UserFeedback, .feedback ⟨none, [d1]⟩⟩
        ["1", "why", "q"]
      = .ok (⟨[prefPrev], Stage.End, .terminal ⟨[d1.proposal]⟩⟩, []) :=
  quit_outputs_current_loop_selections
    ⟨[prefPrev], Stage.UserFeedback, .feedback ⟨none, [d1]⟩⟩
    ⟨none, [d1]⟩ ["1", "why", "q"] [] [⟨d1.proposal, some "why"⟩]
    rfl rfl (by rfl)

/-- C10: an empty speaker queue with no proposal ever accepted hands
`proposal = none` to UserFeedback, and the feedback loop runs over the
accumulated divergences and terminates normally (a quit, or a selection
followed by a quit) instead of aborting on the nil proposal. -/
theorem empty_queue_nil_proposal_feedback_safe (o : Oracle) (groups : Groups)
    (prefs : List Preference) (divs : List Divergence) (mems : Mems)
    (rest : List String) (d : Divergence) :
    collaborateRound o groups
        ⟨prefs, Stage.Collaborate, .collab ⟨[], none, divs⟩⟩ mems
      = .ok (⟨prefs, Stage.UserFeedback, .feedback ⟨none, divs⟩⟩, mems)
    ∧ userFeedbackRound ⟨prefs, Stage.UserFeedback, .feedback ⟨none, divs⟩⟩
        ("q" :: rest)
      = .ok (⟨prefs, Stage.End, .terminal ⟨[]⟩⟩, rest)
    ∧ userFeedbackRound ⟨prefs, Stage.UserFeedback, .feedback ⟨none, [d]⟩⟩
        ["1", "why", "q"]
      = .ok (⟨prefs, Stage.End, .terminal ⟨[d.proposal]⟩⟩, []) :=
  ⟨rfl, rfl, rfl⟩

theorem collaborateRound_ok_shape {o : Oracle} {groups : Groups}
    {g : GraphState} {m : Mems} {g2 : GraphState} {m2 : Mems}
    {cs : CollaborateState} (hcs : g.state = NodeState.collab cs)
    (h : collaborateRound o groups g m = .ok (g2, m2)) :
    (cs.queue = [] ∧
      g2 = { g with
              stage := Stage.UserFeedback,
              state := .feedback ⟨cs.proposal, cs.divergences⟩ } ∧ m2 = m)
    ∨ (∃ r rest cs2, cs.queue = r :: rest ∧ g2.stage = Stage.Collaborate
        ∧ g2.user_preferences = g.user_preferences
        ∧ g2.state = NodeState.collab cs2
        ∧ (cs2.queue = rest ∨ cs2.queue = rest ++ [r])) := by
  obtain ⟨up, stg, st⟩ := g
  dsimp only at hcs
  subst hcs
  unfold collaborateRound at h
  split at h
  · exact absurd h (by simp)
  · rename_i hstg
    have hstg2 : stg = Stage.Collaborate := by
      by_contra hne
      exact hstg hne
    subst hstg2
    dsimp only at h
    obtain ⟨q, prop, divs⟩ := cs
    cases q with
    | nil =>
      dsimp only at h
      rw [Except.ok.injEq, Prod.mk.injEq] at h
      obtain ⟨h1, h2⟩ := h
      subst h1
      subst h2
      exact Or.inl ⟨rfl, rfl, rfl⟩
    | cons r rest =>
      dsimp only at h
      split at h
      · exact absurd h (by simp)
      · split at h
        · exact absurd h (by simp)
        · split at h
          · rw [Except.ok.injEq, Prod.mk.injEq] at h
            obtain ⟨h1, h2⟩ := h
            subst h1
            subst h2
            exact Or.inr ⟨r, rest, ⟨rest, prop, _⟩, rfl, rfl, rfl, rfl, Or.inl rfl⟩
          · split at h
            · exact absurd h (by simp)
            · rw [Except.ok.injEq, Prod.mk.injEq] at h
              obtain ⟨h1, h2⟩ := h
              subst h1
              subst h2
              exact Or.inr ⟨r, rest, ⟨rest ++ [r], _, divs⟩, rfl, rfl, rfl, rfl,
                Or.inr rfl⟩

/-- C7 amended: a Collaborate-stage round that *returns a state*
transitions to UserFeedback exactly when the speaker queue is empty
(carrying the current best proposal and the divergence log unmodified), and
with a non-empty queue the returned stage is always Collaborate.  (A
unanimously accepted round with other roles present may instead abort with
ValueError — the line-197 leaked loop variable — producing no transition at
all; see `accepted_round_makes_no_transition`.) -/
theorem collaborate_termination_law (o : Oracle) (groups : Groups)
    (g g2 : GraphState) (m : Mems) (cs : CollaborateState)
    (hcs : g.state = .collab cs)
    (h : (collaborateRound o groups g m).map Prod.fst = .ok g2) :
    (g2.stage = Stage.UserFeedback ↔ cs.queue = [])
    ∧ (cs.queue = [] →
        g2 = { g with
                stage := Stage.UserFeedback,
                state := .feedback ⟨cs.proposal, cs.divergences⟩ })
    ∧ (cs.queue ≠ [] → g2.stage = Stage.Collaborate) := by
  cases hr : collaborateRound o groups g m with
  | error e => rw [hr] at h; simp [Except.map] at h
  | ok p =>
    rw [hr] at h
    obtain ⟨g2x, m2x⟩ := p
    simp only [Except.map, Except.ok.injEq] at h
    subst h
    rcases collaborateRound_ok_shape hcs hr with ⟨hq, hg2, _⟩
      | ⟨r, rest, cs2, hq, hstage, _, _, _⟩
    · subst hg2
      refine ⟨by simp [hq], fun _ => rfl, fun hne => absurd hq hne⟩
    · refine ⟨?_, fun hnil => ?_, fun _ => hstage⟩
      · rw [hq, hstage]
        simp
      · rw [hq] at hnil
        cases hnil

/-- Witness for C7 at a concrete empty-queue round. -/
theorem collaborate_termination_law_witness :
    (⟨[], Stage.UserFeedback, NodeState.feedback ⟨none, []⟩⟩
      : GraphState).stage = Stage.UserFeedback :=
  (collaborate_termination_law trivOracle (mkAgentGroups [])
    ⟨[], Stage.Collaborate, .collab ⟨[], none, []⟩⟩
    ⟨[], Stage.UserFeedback, .feedback ⟨none, []⟩⟩
    initMems ⟨[], none, []⟩ rfl rfl).1.mpr rfl

/-- C8: from any Collaborate state whose queue holds each Role at most once
(in particular the initial state, whose queue is the caller's role list),
every state reachable by iterating collaborate rounds has a queue with each
Role at most once, and a popped speaker `r` (queue `r :: rest`) is never
simultaneously in the remaining queue. -/
theorem collaborate_queue_nodup_invariant (o : Oracle) (groups : Groups)
    (n : Nat) (g g2 : GraphState) (m : Mems) (cs cs2 : CollaborateState)
    (hcs : g.state = .collab cs) (hnd : cs.queue.Nodup)
    (h : (collabSteps o groups n g m).map Prod.fst = .ok g2)
    (hcs2 : g2.state = .collab cs2) :
    cs2.queue.Nodup ∧ ∀ r rest, cs2.queue = r :: rest → r ∉ rest := by
  induction n generalizing g m cs with
  | zero =>
    simp only [collabSteps, Except.map, Except.ok.injEq] at h
    subst h
    rw [hcs] at hcs2
    rw [NodeState.collab.injEq] at hcs2
    subst hcs2
    refine ⟨hnd, fun r rest hq => ?_⟩
    rw [hq] at hnd
    exact (List.nodup_cons.mp hnd).1
  | succ k ih =>
    simp only [collabSteps] at h
    cases hr : collaborateRound o groups g m with
    | error e => rw [hr] at h; simp [Except.map] at h
    | ok p =>
      rw [hr] at h
      obtain ⟨gmid, mmid⟩ := p
      dsimp only at h
      by_cases hstage : gmid.stage = Stage.Collaborate
      · rw [if_pos hstage] at h
        rcases collaborateRound_ok_shape hcs hr with ⟨_, hg2, _⟩
          | ⟨r, rest, csm, hq, _, _, hstate, hqueue⟩
        · rw [hg2] at hstage
          simp at hstage
        · refine ih gmid mmid csm hstate ?_ h
          rw [hq] at hnd
          have hr2 : r ∉ rest := (List.nodup_cons.mp hnd).1
          have hrest : rest.Nodup := (List.nodup_cons.mp hnd).2
          rcases hqueue with h1 | h1
          · rw [h1]
            exact hrest
          · rw [h1]
            simp [List.nodup_append, hrest, hr2]
      · rw [if_neg hstage] at h
        simp only [Except.map, Except.ok.injEq] at h
        subst h
        rcases collaborateRound_ok_shape hcs hr with ⟨_, hg2, _⟩
          | ⟨r, rest, csm, _, hstg, _, _, _⟩
        · rw [hg2] at hcs2
          simp at hcs2
        · exact absurd hstg hstage

/-- Witness for C8: one rejected round on roles `[rA, rB]` (a run the
program completes) drops the speaker, leaving the queue `[rB]`, which still
holds each role at most once. -/
theorem collaborate_queue_nodup_invariant_witness :
    ([rB] : List Role).Nodup :=
  (collaborate_queue_nodup_invariant oObj (mkAgentGroups [rA, rB]) 1
    ⟨[], Stage.Collaborate, .collab ⟨[rA, rB], none, []⟩⟩
    ⟨[], Stage.Collaborate, .collab ⟨[rB], none, [dAB]⟩⟩
    initMems ⟨[rA, rB], none, []⟩ ⟨[rB], none, [dAB]⟩
    rfl (by decide) rfl rfl).1

/-- C3 amended: in a collaborate round with a non-empty queue that *returns
a state*, the round appends exactly one Divergence to the log iff the
collected objection list is non-empty (and then the current best proposal
is unchanged), and it sets the current best proposal to the newly proposed
response iff the objection list is empty — the two outcomes are mutually
exclusive, and exhaustive over rounds that return.  (An accepted round with
other roles present and no stale pending propose exchange on the last of
them aborts with ValueError instead — the line-197 leaked loop variable —
see `accepted_round_reaches_no_outcome`.) -/
theorem collaborate_unanimity_law (o : Oracle) (roles : List Role)
    (prefs : List Preference) (role : Role) (rest : List Role)
    (prop : Option ProposeResponse) (divs : List Divergence) (mems : Mems)
    (g2 : GraphState) (cs2 : CollaborateState)
    (h : (collaborateRound o (mkAgentGroups roles)
      ⟨prefs, Stage.Collaborate, .collab ⟨role :: rest, prop, divs⟩⟩
      mems).map Prod.fst = .ok g2)
    (hcs2 : g2.state = .collab cs2) :
    (cs2.divergences
        = divs ++ [⟨⟨role, (o.propose role prop prefs).proposal⟩,
            roundObjections o (groupsOthers (mkAgentGroups roles) role) prop
              (o.propose role prop prefs) prefs⟩]
      ↔ roundObjections o (groupsOthers (mkAgentGroups roles) role) prop
          (o.propose role prop prefs) prefs ≠ [])
    ∧ (roundObjections o (groupsOthers (mkAgentGroups roles) role) prop
          (o.propose role prop prefs) prefs ≠ [] → cs2.proposal = prop)
    ∧ (cs2.divergences = divs
      ↔ roundObjections o (groupsOthers (mkAgentGroups roles) role) prop
          (o.propose role prop prefs) prefs = [])
    ∧ (roundObjections o (groupsOthers (mkAgentGroups roles) role) prop
          (o.propose role prop prefs) prefs = [] →
        cs2.proposal = some (o.propose role prop prefs)) := by
  cases hg : groupsGet (mkAgentGroups roles) role with
  | none =>
    rw [collaborateRound_role_not_found o _ prefs role rest prop divs mems hg]
      at h
    simp [Except.map] at h
  | some r0 =>
    rw [collaborateRound_cons_eq o (mkAgentGroups roles) prefs role rest prop
      divs mems r0 hg
      (groupsOthers_names_nodup _ _ (mkAgentGroups_keys_nodup roles)
        (mkAgentGroups_name_eq roles))
      (speaker_not_mem_others_names _ _ (mkAgentGroups_name_eq roles))] at h
    by_cases hobj : roundObjections o (groupsOthers (mkAgentGroups roles) role)
        prop (o.propose role prop prefs) prefs = []
    · rw [if_pos hobj] at h
      cases hup : updatePropose
          (roundMems mems role.name
            ((groupsOthers (mkAgentGroups roles) role).map Role.name))
          (((groupsOthers (mkAgentGroups roles) role).getLast?.getD r0).name)
        with
      | none =>
        rw [hup] at h
        simp [Except.map] at h
      | some mems4 =>
        rw [hup] at h
        simp only [Except.map, Except.ok.injEq] at h
        subst h
        dsimp only at hcs2
        rw [NodeState.collab.injEq] at hcs2
        subst hcs2
        refine ⟨?_, fun hne => absurd hobj hne, by simp [hobj], fun _ => rfl⟩
        simp [hobj]
    · rw [if_neg hobj] at h
      simp only [Except.map, Except.ok.injEq] at h
      subst h
      dsimp only at hcs2
      rw [NodeState.collab.injEq] at hcs2
      subst hcs2
      refine ⟨by simp [hobj], fun _ => rfl, ?_, fun heq => absurd heq hobj⟩
      constructor
      · intro hd
        have hlen := congrArg List.length hd
        simp at hlen
      · intro heq
        exact absurd heq hobj

/-- Witness for C3: with the always-objecting oracle, the round on
`[rA, rB]` appends exactly the divergence `dAB` to the empty log. -/
theorem collaborate_unanimity_law_witness :
    ([dAB] : List Divergence) = [] ++ [dAB] :=
  (collaborate_unanimity_law oObj [rA, rB] [] rA [rB] none [] initMems
    ⟨[], Stage.Collaborate, .collab ⟨[rB], none, [dAB]⟩⟩
    ⟨[rB], none, [dAB]⟩ rfl rfl).1.mpr (by decide)

/-- C4 amended: the front role of a non-empty queue speaks; if it appears
at most once in the queue, then whenever the round *returns a state*,
acceptance (no objections) re-enqueues it at the back and rejection (some
objection) leaves it absent from the resulting queue entirely.  (An
accepted round with other roles present and no stale pending propose
exchange on the last of them aborts with ValueError before any transition
— see `accepted_round_reenqueues_nobody`.) -/
theorem collaborate_rotation_law (o : Oracle) (roles : List Role)
    (prefs : List Preference) (role : Role) (rest : List Role)
    (prop : Option ProposeResponse) (divs : List Divergence) (mems : Mems)
    (g2 : GraphState) (cs2 : CollaborateState)
    (honce : role ∉ rest)
    (h : (collaborateRound o (mkAgentGroups roles)
      ⟨prefs, Stage.Collaborate, .collab ⟨role :: rest, prop, divs⟩⟩
      mems).map Prod.fst = .ok g2)
    (hcs2 : g2.state = .collab cs2) :
    (roundObjections o (groupsOthers (mkAgentGroups roles) role) prop
        (o.propose role prop prefs) prefs = [] →
      cs2.queue = rest ++ [role])
    ∧ (roundObjections o (groupsOthers (mkAgentGroups roles) role) prop
        (o.propose role prop prefs) prefs ≠ [] →
      cs2.queue = rest ∧ role ∉ cs2.queue) := by
  cases hg : groupsGet (mkAgentGroups roles) role with
  | none =>
    rw [collaborateRound_role_not_found o _ prefs role rest prop divs mems hg]
      at h
    simp [Except.map] at h
  | some r0 =>
    rw [collaborateRound_cons_eq o (mkAgentGroups roles) prefs role rest prop
      divs mems r0 hg
      (groupsOthers_names_nodup _ _ (mkAgentGroups_keys_nodup roles)
        (mkAgentGroups_name_eq roles))
      (speaker_not_mem_others_names _ _ (mkAgentGroups_name_eq roles))] at h
    by_cases hobj : roundObjections o (groupsOthers (mkAgentGroups roles) role)
        prop (o.propose role prop prefs) prefs = []
    · rw [if_pos hobj] at h
      cases hup : updatePropose
          (roundMems mems role.name
            ((groupsOthers (mkAgentGroups roles) role).map Role.name))
          (((groupsOthers (mkAgentGroups roles) role).getLast?.getD r0).name)
        with
      | none =>
        rw [hup] at h
        simp [Except.map] at h
      | some mems4 =>
        rw [hup] at h
        simp only [Except.map, Except.ok.injEq] at h
        subst h
        dsimp only at hcs2
        rw [NodeState.collab.injEq] at hcs2
        subst hcs2
        exact ⟨fun _ => rfl, fun hne => absurd hobj hne⟩
    · rw [if_neg hobj] at h
      simp only [Except.map, Except.ok.injEq] at h
      subst h
      dsimp only at hcs2
      rw [NodeState.collab.injEq] at hcs2
      subst hcs2
      exact ⟨fun heq => absurd heq hobj, fun _ => ⟨rfl, honce⟩⟩

/-- Witness for C4: with the always-objecting oracle, speaker `rA` of queue
`[rA, rB]` is rejected, and it is absent from the resulting queue `[rB]`. -/
theorem collaborate_rotation_law_witness :
    rA ∉ ([rB] : List Role) :=
  ((collaborate_rotation_law oObj [rA, rB] [] rA [rB] none [] initMems
    ⟨[], Stage.Collaborate, .collab ⟨[rB], none, [dAB]⟩⟩
    ⟨[rB], none, [dAB]⟩ (by decide) rfl rfl).2 (by decide)).2

/-- C6: false of the source.  The statement-level loop
`for group in others: group.declare.update()` (src/main.py lines 157-158)
leaks its variable, so the acceptance-path commit `group.propose.update()`
at line 197 targets the *last non-speaking* group, never the speaker, when
other roles are present: with no pending propose exchange there the
accepted round aborts with ValueError (first conjunct), and with a stale
pending exchange (that role spoke earlier and was rejected) the wrong
agent's exchange is committed while the speaker's propose memory stays
untouched (second conjunct: speaker `rA` propose count stays 0, `rB` gets
the commit).  Only with no other roles does the speaker commit (third
conjunct), and declare memories are committed once per non-speaking role
regardless of outcome while a rejected round commits no propose exchange
(fourth conjunct). -/
theorem acceptance_commit_targets_wrong_agent :
    collaborateRound trivOracle (mkAgentGroups [rA, rB])
        ⟨[], Stage.Collaborate, .collab ⟨[rA, rB], none, []⟩⟩ initMems
      = .error "please invoke first before update"
    ∧ (collaborateRound trivOracle (mkAgentGroups [rA, rB])
        ⟨[], Stage.Collaborate, .collab ⟨[rA, rB], none, []⟩⟩
        (setMem initMems rB.name { AgentState.init with proposeTemp := true })
      ).map (fun p => ((p.2 rA.name).proposeMem, (p.2 rB.name).proposeMem,
        (p.2 rB.name).declareMem))
      = .ok (0, 1, 1)
    ∧ (collaborateRound trivOracle (mkAgentGroups [rA])
        ⟨[], Stage.Collaborate, .collab ⟨[rA], none, []⟩⟩ initMems
      ).map (fun p => (p.2 rA.name).proposeMem) = .ok 1
    ∧ (collaborateRound oObj (mkAgentGroups [rA, rB])
        ⟨[], Stage.Collaborate, .collab ⟨[rA, rB], none, []⟩⟩ initMems
      ).map (fun p => ((p.2 rA.name).proposeMem, (p.2 rB.name).declareMem))
      = .ok (0, 1) :=
  ⟨rfl, rfl, rfl, rfl⟩

/-- C3 counterexample: a unanimously accepted round with another role
present and fresh memories produces neither of the claim's two outcomes —
no Divergence is appended and no proposal is set, because the round aborts
with ValueError when the leaked loop variable's agent has no pending
propose exchange. -/
theorem accepted_round_reaches_no_outcome :
    roundObjections trivOracle (groupsOthers (mkAgentGroups [rA, rB]) rA) none
        (trivOracle.propose rA none []) [] = []
    ∧ collaborateRound trivOracle (mkAgentGroups [rA, rB])
        ⟨[], Stage.Collaborate, .collab ⟨[rA, rB], none, []⟩⟩ initMems
      = .error "please invoke first before update"
    ∧ (collaborateRound trivOracle (mkAgentGroups [rA, rB])
        ⟨[], Stage.Collaborate, .collab ⟨[rA, rB], none, []⟩⟩ initMems
      ).map (fun p => p.1.state)
      ≠ .ok (.collab ⟨[rB, rA], some (trivOracle.propose rA none []), []⟩) :=
  ⟨rfl, rfl, by decide⟩

/-- C4 counterexample: on a unanimously accepted round with another role
present and fresh memories, the popped speaker is *not* re-enqueued at the
back — the round aborts with ValueError before returning any queue. -/
theorem accepted_round_reenqueues_nobody :
    roundObjections trivOracle (groupsOthers (mkAgentGroups [rA, rB]) rA) none
        (trivOracle.propose rA none []) [] = []
    ∧ collaborateRound trivOracle (mkAgentGroups [rA, rB])
        ⟨[], Stage.Collaborate, .collab ⟨[rA, rB], none, []⟩⟩ initMems
      = .error "please invoke first before update"
    ∧ (collaborateRound trivOracle (mkAgentGroups [rA, rB])
        ⟨[], Stage.Collaborate, .collab ⟨[rA, rB], none, []⟩⟩ initMems
      ).map Prod.fst
      ≠ .ok ⟨[], Stage.Collaborate,
          .collab ⟨[rB] ++ [rA], some (trivOracle.propose rA none []), []⟩⟩ :=
  ⟨rfl, rfl, by decide⟩

/-- C7 counterexample: a Collaborate-stage step with a non-empty queue need
not reach stage Collaborate (or any stage): a unanimously accepted round
with another role present and fresh memories aborts with ValueError, so no
transition happens. -/
theorem accepted_round_makes_no_transition :
    collaborateRound trivOracle (mkAgentGroups [rA, rB])
        ⟨[], Stage.Collaborate, .collab ⟨[rA, rB], none, []⟩⟩ initMems
      = .error "please invoke first before update"
    ∧ (collaborateRound trivOracle (mkAgentGroups [rA, rB])
        ⟨[], Stage.Collaborate, .collab ⟨[rA, rB], none, []⟩⟩ initMems
      ).map (fun p => p.1.stage) ≠ .ok Stage.Collaborate :=
  ⟨rfl, by decide⟩
